import Mathlib

/-
Verification development for the time2review report generator (src/main.go).

The Go program fetches closed pull requests of one repository, enriches each
merged PR with timing and participant metadata (comments, commits, reviews),
and computes aggregate statistics over the resulting in-memory record list.

Modelling conventions:
  - Go time.Time values are modelled by GoTime, carrying the UTC components
    the program reads (weekday, hour, month, year) together with an absolute
    instant in nanoseconds (field abs) so that time.Time.Sub is subtraction
    of the abs fields.  time.Duration (an int64 nanosecond count) is Int.
  - Nil pointers (for example pr.MergedAt of an unmerged PR) are Option.
  - The GitHub client is a record of per-PR-number fetch functions returning
    Except String; a Go error is the .error case.
  - Go float64 averages are modelled by exact rationals (Rat); the claims
    proved here only evaluate them on the guarded empty-list path.
  - Go maps built by counting loops are modelled by association lists in
    first-insertion order (bumpCount); the max-scan over map iteration
    (modeLoop) walks that deterministic order.  The claims proved about the
    mode functions are insensitive to iteration order.
-/

set_option autoImplicit false

namespace TimeToReview

/-- UTC components of a Go time.Time value, together with the absolute
instant abs in nanoseconds since the epoch used by time.Time.Sub. -/
structure GoTime where
  abs : Int
  weekday : Nat
  hour : Nat
  month : Nat
  year : Int
deriving DecidableEq, Repr

/-- Rendering of Go time.Weekday.String for weekday numbers 0 (Sunday)
through 6 (Saturday). -/
def weekdayString (w : Nat) : String :=
  match w with
  | 0 => "Sunday"
  | 1 => "Monday"
  | 2 => "Tuesday"
  | 3 => "Wednesday"
  | 4 => "Thursday"
  | 5 => "Friday"
  | _ => "Saturday"

/-- Model of Go strings.HasSuffix s suffix. -/
def hasSuffix (s suffix : String) : Bool :=
  if suffix.data.length ≤ s.data.length then
    s.data.drop (s.data.length - suffix.data.length) == suffix.data
  else
    false

/-- An issue comment: the author login and the comment creation time. -/
structure Comment where
  userLogin : String
  createdAt : GoTime
deriving DecidableEq, Repr

/-- A PR commit; the program only takes the length of the commit list. -/
structure Commit where
  sha : String
deriving DecidableEq, Repr

/-- A PR review: the reviewer login. -/
structure Review where
  userLogin : String
deriving DecidableEq, Repr

/-- A closed pull request as returned by the list endpoint.  CreatedAt and
MergedAt are nil-able pointers in Go, hence Option. -/
structure PullRequest where
  number : Int
  title : String
  userLogin : String
  createdAt : Option GoTime
  mergedAt : Option GoTime
deriving DecidableEq, Repr

/-- Model of getDayOfWeekAndTimeOfDay (main.go lines 169 to 184): the weekday
name and the five-way time-of-day bucket decided by the UTC hour. -/
def getDayOfWeekAndTimeOfDay (t : GoTime) : String × String :=
  (weekdayString t.weekday,
    if t.hour < 6 then "after midnight [UTC 00:00-06:00)"
    else if t.hour < 12 then "morning [UTC 06:00-12:00)"
    else if t.hour < 17 then "afternoon [UTC 12:00-17:00)"
    else if t.hour < 20 then "evening [UTC 17:00-20:00)"
    else "night [UTC 20:00-00:00)")

/-- Model of getYearAndQuarter (main.go lines 264 to 276): the year and the
calendar quarter of the month, via the same ordered switch as the source. -/
def getYearAndQuarter (t : GoTime) : Int × String :=
  (t.year,
    if 4 ≤ t.month ∧ t.month ≤ 6 then "Q2"
    else if 7 ≤ t.month ∧ t.month ≤ 9 then "Q3"
    else if 10 ≤ t.month then "Q4"
    else "Q1")

/-- The PRInfo record built by the enricher (main.go lines 72 to 94).
Durations are Int nanoseconds. -/
structure PRInfo where
  Number : Int
  Title : String
  Creator : String
  CreationDayOfWeek : String
  CreationTimeOfDay : String
  FirstResponder : String
  FirstResponseDayOfWeek : String
  FirstResponseTimeOfDay : String
  TimeToFirstResponse : Int
  FirstHumanResponder : String
  FirstHumanResponseDayOfWeek : String
  FirstHumanResponseTimeOfDay : String
  TimeToFirstHumanResponse : Int
  MergeDayOfWeek : String
  MergeTimeOfDay : String
  Quarter : String
  Year : Int
  Duration : Int
  Commits : Nat
  Commenters : List String
  Reviewers : List String
deriving DecidableEq, Repr

/-- The Go zero value of PRInfo, as produced by var prInfo PRInfo. -/
def PRInfo.zero : PRInfo :=
  { Number := 0, Title := "", Creator := "", CreationDayOfWeek := "",
    CreationTimeOfDay := "", FirstResponder := "",
    FirstResponseDayOfWeek := "", FirstResponseTimeOfDay := "",
    TimeToFirstResponse := 0, FirstHumanResponder := "",
    FirstHumanResponseDayOfWeek := "", FirstHumanResponseTimeOfDay := "",
    TimeToFirstHumanResponse := 0, MergeDayOfWeek := "",
    MergeTimeOfDay := "", Quarter := "", Year := 0, Duration := 0,
    Commits := 0, Commenters := [], Reviewers := [] }

/-- The GitHub client, already scoped to the fixed owner and repository:
each field maps a PR number to the fetch result of the corresponding API
call (ListComments, ListCommits, ListReviews). -/
structure Client where
  listComments : Int → Except String (List Comment)
  listCommits : Int → Except String (List Commit)
  listReviews : Int → Except String (List Review)

/-- The first-response scan of the comment loop (main.go lines 117 to 129):
each comment first sets the first-responder fields if they are still empty,
then, if its author login does not end in the bot suffix and no first human
responder is recorded yet, sets the first-human fields and breaks. -/
def scanComments (createdAt : GoTime) : PRInfo → List Comment → PRInfo
  | info, [] => info
  | info, c :: rest =>
    let info1 :=
      if info.FirstResponder = "" then
        { info with
            TimeToFirstResponse := c.createdAt.abs - createdAt.abs,
            FirstResponseDayOfWeek := (getDayOfWeekAndTimeOfDay c.createdAt).1,
            FirstResponseTimeOfDay := (getDayOfWeekAndTimeOfDay c.createdAt).2,
            FirstResponder := c.userLogin }
      else info
    if hasSuffix c.userLogin "[bot]" = false ∧ info1.FirstHumanResponder = "" then
      { info1 with
          TimeToFirstHumanResponse := c.createdAt.abs - createdAt.abs,
          FirstHumanResponseDayOfWeek := (getDayOfWeekAndTimeOfDay c.createdAt).1,
          FirstHumanResponseTimeOfDay := (getDayOfWeekAndTimeOfDay c.createdAt).2,
          FirstHumanResponder := c.userLogin }
    else
      scanComments createdAt info1 rest

/-- The body of the getMergeTimes loop for one PR (main.go lines 99 to 163):
returns some record when the PR has both instants and all three fetches
succeed, and none when the PR is skipped (missing instant or fetch error). -/
def enrichPR (client : Client) (pr : PullRequest) : Option PRInfo :=
  match pr.mergedAt, pr.createdAt with
  | some mergedAt, some createdAt =>
    let info0 : PRInfo :=
      { PRInfo.zero with
          Number := pr.number,
          Title := pr.title,
          Creator := pr.userLogin,
          CreationDayOfWeek := (getDayOfWeekAndTimeOfDay createdAt).1,
          CreationTimeOfDay := (getDayOfWeekAndTimeOfDay createdAt).2,
          Duration := mergedAt.abs - createdAt.abs,
          Year := (getYearAndQuarter createdAt).1,
          Quarter := (getYearAndQuarter createdAt).2 }
    match client.listComments pr.number with
    | .error _ => none
    | .ok comments =>
      let info1 := scanComments createdAt info0 comments
      match client.listCommits pr.number with
      | .error _ => none
      | .ok commits =>
        let info2 :=
          { info1 with
              Commits := commits.length,
              Commenters :=
                (comments.filter
                  (fun (c : Comment) => !(hasSuffix c.userLogin "[bot]"))).map
                  Comment.userLogin }
        match client.listReviews pr.number with
        | .error _ => none
        | .ok reviews =>
          some
            { info2 with
                Reviewers :=
                  (reviews.filter
                    (fun (r : Review) => !(hasSuffix r.userLogin "[bot]"))).map
                    Review.userLogin,
                MergeDayOfWeek := (getDayOfWeekAndTimeOfDay mergedAt).1,
                MergeTimeOfDay := (getDayOfWeekAndTimeOfDay mergedAt).2 }
  | _, _ => none

/-- Model of getMergeTimes (main.go lines 96 to 167): the enrichment loop
appends, in order, one record per PR that enriches successfully. -/
def getMergeTimes (client : Client) (prs : List PullRequest) : List PRInfo :=
  prs.filterMap (enrichPR client)

/-- True exactly on the .error case of a fetch result. -/
def isErr {α : Type} (e : Except String α) : Bool :=
  match e with
  | .error _ => true
  | .ok _ => false

/-- The list options built by getPullRequestListOptions (main.go lines 59
to 70): state "closed", the computed page size, and the page number whose Go
zero value is 0. -/
structure PullRequestListOptions where
  state : String
  perPage : Int
  page : Nat
deriving Repr

/-- Model of getPullRequestListOptions (main.go lines 59 to 70). -/
def getPullRequestListOptions (numPRs : Int) : PullRequestListOptions :=
  { state := "closed",
    perPage := if 0 < numPRs ∧ numPRs < 100 then numPRs else 100,
    page := 0 }

/-- The paginated list endpoint for closed PRs: given the page size and the
page number it returns the page items and the next page number, where next
page 0 means no further pages; the .error case is a fatal fetch error. -/
structure PRSource where
  listPRPage : Int → Nat → Except String (List PullRequest × Nat)

/-- The fetch loop of main (main.go lines 31 to 42), with an explicit fuel
bound on the number of iterations: none models both a fatal page-fetch error
(Go returns from main with no output) and fuel exhaustion. -/
def fetchLoop (src : PRSource) (numPRs : Int) (perPage : Int) :
    Nat → List PullRequest → Nat → Option (List PullRequest)
  | 0, _, _ => none
  | fuel + 1, acc, page =>
    match src.listPRPage perPage page with
    | .error _ => none
    | .ok (prs, nextPage) =>
      let acc1 := acc ++ prs
      if (0 < numPRs ∧ numPRs ≤ (acc1.length : Int)) ∨ nextPage = 0 then
        some acc1
      else
        fetchLoop src numPRs perPage fuel acc1 nextPage

/-- The whole fetch phase of main (main.go lines 26 to 47): run the loop
from the options, then trim the accumulated list to numPRs items when it is
longer. -/
def fetchClosedPRs (src : PRSource) (numPRs : Int) (fuel : Nat) :
    Option (List PullRequest) :=
  let opt := getPullRequestListOptions numPRs
  (fetchLoop src numPRs opt.perPage fuel [] opt.page).map
    (fun allPRs =>
      if 0 < numPRs ∧ numPRs < (allPRs.length : Int) then
        allPRs.take numPRs.toNat
      else
        allPRs)

/-- One step of a Go counting map m[k]++, on the association-list model in
first-insertion order. -/
def bumpCount : List (String × Nat) → String → List (String × Nat)
  | [], k => [(k, 1)]
  | (k1, c) :: rest, k =>
    if k1 = k then (k1, c + 1) :: rest else (k1, c) :: bumpCount rest k

/-- Lookup in the association-list model of a Go counting map; absent keys
have count 0. -/
def lookupC : List (String × Nat) → String → Nat
  | [], _ => 0
  | (k1, c) :: rest, k => if k1 = k then c else lookupC rest k

/-- The max-scan every mode aggregate runs over its counting map (for
example main.go lines 366 to 373), walking the deterministic insertion
order of the association-list model. -/
def modeLoop : List (String × Nat) → Nat → String → String
  | [], _, best => best
  | (k, c) :: rest, mx, best =>
    if c > mx then modeLoop rest c k else modeLoop rest mx best

/-- Model of averageMergeTime (main.go lines 278 to 289); Go division of
time.Duration values truncates toward zero, hence Int.tdiv. -/
def averageMergeTime (prData : List PRInfo) : Int :=
  if prData.length = 0 then 0
  else Int.tdiv (prData.foldl (fun acc pr => acc + pr.Duration) 0)
    (prData.length : Int)

/-- Model of averageFirstReponseHumanTime (main.go lines 291 to 302); the
source function name carries this spelling. -/
def averageFirstReponseHumanTime (prData : List PRInfo) : Int :=
  if prData.length = 0 then 0
  else Int.tdiv (prData.foldl (fun acc pr => acc + pr.TimeToFirstHumanResponse) 0)
    (prData.length : Int)

/-- Model of averageNumberOfComments (main.go lines 304 to 315); the Go
float64 quotient is modelled by an exact rational. -/
def averageNumberOfComments (prData : List PRInfo) : Rat :=
  if prData.length = 0 then 0
  else ((prData.foldl (fun acc pr => acc + pr.Commenters.length) 0 : Nat) : Rat) /
    (prData.length : Rat)

/-- Model of averageTimeToFirstBotResponse (main.go lines 317 to 328). -/
def averageTimeToFirstBotResponse (prData : List PRInfo) : Int :=
  if prData.length = 0 then 0
  else Int.tdiv (prData.foldl (fun acc pr => acc + pr.TimeToFirstResponse) 0)
    (prData.length : Int)

/-- Model of averageNumberOfReviewers (main.go lines 330 to 341). -/
def averageNumberOfReviewers (prData : List PRInfo) : Rat :=
  if prData.length = 0 then 0
  else ((prData.foldl (fun acc pr => acc + pr.Reviewers.length) 0 : Nat) : Rat) /
    (prData.length : Rat)

/-- Model of averageNumberOfCommits (main.go lines 343 to 354). -/
def averageNumberOfCommits (prData : List PRInfo) : Rat :=
  if prData.length = 0 then 0
  else ((prData.foldl (fun acc pr => acc + pr.Commits) 0 : Nat) : Rat) /
    (prData.length : Rat)

/-- Model of dayWithMostPRsCreated (main.go lines 356 to 376). -/
def dayWithMostPRsCreated (prData : List PRInfo) : String :=
  if prData.length = 0 then ""
  else modeLoop
    (prData.foldl (fun m pr => bumpCount m pr.CreationDayOfWeek) []) 0 ""

/-- Model of timeOfTheDayWithMostPRsCreated (main.go lines 378 to 398). -/
def timeOfTheDayWithMostPRsCreated (prData : List PRInfo) : String :=
  if prData.length = 0 then ""
  else modeLoop
    (prData.foldl (fun m pr => bumpCount m pr.CreationTimeOfDay) []) 0 ""

/-- Model of dayMostPRsMerged (main.go lines 400 to 420). -/
def dayMostPRsMerged (prData : List PRInfo) : String :=
  if prData.length = 0 then ""
  else modeLoop
    (prData.foldl (fun m pr => bumpCount m pr.MergeDayOfWeek) []) 0 ""

/-- Model of timeOfTheDayWithMostPRsMerged (main.go lines 422 to 442). -/
def timeOfTheDayWithMostPRsMerged (prData : List PRInfo) : String :=
  if prData.length = 0 then ""
  else modeLoop
    (prData.foldl (fun m pr => bumpCount m pr.MergeTimeOfDay) []) 0 ""

/-- Model of dayOfTheWeekWithMostFirstHumanResponses (main.go lines 444 to
466): records with an empty FirstHumanResponder are skipped. -/
def dayOfTheWeekWithMostFirstHumanResponses (prData : List PRInfo) : String :=
  if prData.length = 0 then ""
  else modeLoop
    (prData.foldl
      (fun m pr =>
        if pr.FirstHumanResponder ≠ "" then
          bumpCount m pr.FirstHumanResponseDayOfWeek
        else m) []) 0 ""

/-- Model of timeOfTheDayWithMostFirstHumanResponses (main.go lines 468 to
490). -/
def timeOfTheDayWithMostFirstHumanResponses (prData : List PRInfo) : String :=
  if prData.length = 0 then ""
  else modeLoop
    (prData.foldl
      (fun m pr =>
        if pr.FirstHumanResponder ≠ "" then
          bumpCount m pr.FirstHumanResponseTimeOfDay
        else m) []) 0 ""

/-- One step of the Go set map developers[name] = true, keeping insertion
order in the list model. -/
def addName (m : List String) (n : String) : List String :=
  if n ∈ m then m else m ++ [n]

/-- Model of getTheNamesOfAllDevelopersWhoCreatedMergedReviewedCommentedOnOrApprovedPRs
(main.go lines 492 to 514): the distinct creator, commenter and reviewer
handles, in first-insertion order. -/
def getTheNamesOfAllDevelopersWhoCreatedMergedReviewedCommentedOnOrApprovedPRs
    (prData : List PRInfo) : List String :=
  if prData.length = 0 then []
  else prData.foldl
    (fun m pr =>
      let m1 := addName m pr.Creator
      let m2 := pr.Commenters.foldl addName m1
      pr.Reviewers.foldl addName m2) []

/-- Model of dayOfTheWeekWithMostPRReviews (main.go lines 516 to 536): the
source counts the FirstResponseDayOfWeek field. -/
def dayOfTheWeekWithMostPRReviews (prData : List PRInfo) : String :=
  if prData.length = 0 then ""
  else modeLoop
    (prData.foldl (fun m pr => bumpCount m pr.FirstResponseDayOfWeek) []) 0 ""

/-- Model of timeOfTheDayWithMostPRReviews (main.go lines 538 to 558). -/
def timeOfTheDayWithMostPRReviews (prData : List PRInfo) : String :=
  if prData.length = 0 then ""
  else modeLoop
    (prData.foldl (fun m pr => bumpCount m pr.FirstResponseTimeOfDay) []) 0 ""

/-- Model of getTopReviewer (main.go lines 580 to 602): counts every entry
of every Reviewers list. -/
def getTopReviewer (prData : List PRInfo) : String :=
  if prData.length = 0 then ""
  else modeLoop
    (prData.foldl (fun m pr => pr.Reviewers.foldl bumpCount m) []) 0 ""

/-- Model of getTopCommenter (main.go lines 604 to 626). -/
def getTopCommenter (prData : List PRInfo) : String :=
  if prData.length = 0 then ""
  else modeLoop
    (prData.foldl (fun m pr => pr.Commenters.foldl bumpCount m) []) 0 ""

/-- Model of getTopCreator (main.go lines 628 to 648). -/
def getTopCreator (prData : List PRInfo) : String :=
  if prData.length = 0 then ""
  else modeLoop
    (prData.foldl (fun m pr => bumpCount m pr.Creator) []) 0 ""

/-- Model of getTopFirstHumanResponder (main.go lines 650 to 672): records
with an empty FirstHumanResponder are skipped. -/
def getTopFirstHumanResponder (prData : List PRInfo) : String :=
  if prData.length = 0 then ""
  else modeLoop
    (prData.foldl
      (fun m pr =>
        if pr.FirstHumanResponder ≠ "" then
          bumpCount m pr.FirstHumanResponder
        else m) []) 0 ""

/-- Model of getTopFirstResponder (main.go lines 674 to 694): every record
contributes its FirstResponder field, the empty string included. -/
def getTopFirstResponder (prData : List PRInfo) : String :=
  if prData.length = 0 then ""
  else modeLoop
    (prData.foldl (fun m pr => bumpCount m pr.FirstResponder) []) 0 ""

/-- Model of getTopMerger (main.go lines 696 to 716): the source counts the
Creator field of each record. -/
def getTopMerger (prData : List PRInfo) : String :=
  if prData.length = 0 then ""
  else modeLoop
    (prData.foldl (fun m pr => bumpCount m pr.Creator) []) 0 ""

/-- The loop body shared by getTopFirstHumanResponder and the two
first-human mode functions: count the record only when its
FirstHumanResponder is nonempty. -/
def bumpIfHuman (m : List (String × Nat)) (pr : PRInfo) : List (String × Nat) :=
  if pr.FirstHumanResponder ≠ "" then bumpCount m pr.FirstHumanResponder else m

/-- Number of occurrences of a key in a key list; the multiplicity a Go
counting loop assigns to that key. -/
def countKey : List String → String → Nat
  | [], _ => 0
  | k :: rest, x => countKey rest x + (if k = x then 1 else 0)

def w1T1 : GoTime := { abs := 0, weekday := 1, hour := 9, month := 2, year := 2023 }

def w1T2 : GoTime := { abs := 5000, weekday := 1, hour := 15, month := 2, year := 2023 }

def w1Client : Client :=
  { listComments := fun _ => .ok [],
    listCommits := fun _ => .ok [],
    listReviews := fun _ => .ok [] }

def w1Bad : PullRequest := ⟨2, "bad", "bob", some w1T1, none⟩

def w1Good : PullRequest := ⟨1, "good", "alice", some w1T1, some w1T2⟩

def w1Info : PRInfo := (enrichPR w1Client w1Good).getD PRInfo.zero

def w7T1 : GoTime := { abs := 0, weekday := 4, hour := 8, month := 6, year := 2022 }

def w7T2 : GoTime := { abs := 900, weekday := 4, hour := 18, month := 6, year := 2022 }

def w7Client : Client :=
  { listComments := fun _ => .ok [],
    listCommits := fun n => if n = 2 then .error "boom" else .ok [],
    listReviews := fun _ => .ok [] }

def w7Bad : PullRequest := ⟨2, "b", "bob", some w7T1, some w7T2⟩

def w7Good : PullRequest := ⟨3, "g", "alice", some w7T1, some w7T2⟩

def w7Info : PRInfo := (enrichPR w7Client w7Good).getD PRInfo.zero

def x8T0 : GoTime := { abs := 0, weekday := 2, hour := 9, month := 5, year := 2022 }

def x8T1 : GoTime := { abs := 10, weekday := 2, hour := 10, month := 5, year := 2022 }

def x8T2 : GoTime := { abs := 20, weekday := 2, hour := 11, month := 5, year := 2022 }

def x8TM : GoTime := { abs := 30, weekday := 2, hour := 12, month := 5, year := 2022 }

def x8Client : Client :=
  { listComments := fun _ => .ok [⟨"alice", x8T1⟩, ⟨"alice", x8T2⟩],
    listCommits := fun _ => .ok [],
    listReviews := fun _ => .ok [] }

def x8PR : PullRequest := ⟨4, "dup", "carol", some x8T0, some x8TM⟩

def x8Info : PRInfo := (enrichPR x8Client x8PR).getD PRInfo.zero

def w5T0 : GoTime := { abs := 0, weekday := 2, hour := 9, month := 3, year := 2023 }

def w5TC1 : GoTime := { abs := 100, weekday := 2, hour := 10, month := 3, year := 2023 }

def w5TC2 : GoTime := { abs := 250, weekday := 2, hour := 13, month := 3, year := 2023 }

def w5TM : GoTime := { abs := 1000, weekday := 3, hour := 22, month := 3, year := 2023 }

def w5C1 : Comment := ⟨"bot-x[bot]", w5TC1⟩

def w5C2 : Comment := ⟨"alice", w5TC2⟩

def w5Client : Client :=
  { listComments := fun _ => .ok [w5C1, w5C2],
    listCommits := fun _ => .ok [⟨"s"⟩],
    listReviews := fun _ => .ok [⟨"bob"⟩] }

def w5PR : PullRequest := ⟨7, "Fix", "carol", some w5T0, some w5TM⟩

def w5Info : PRInfo := (enrichPR w5Client w5PR).getD PRInfo.zero

def x6PR1 : PullRequest := ⟨1, "a", "u", none, none⟩

def x6PR2 : PullRequest := ⟨2, "b", "u", none, none⟩

def x6PR3 : PullRequest := ⟨3, "c", "u", none, none⟩

def x6Source : PRSource :=
  { listPRPage := fun _ _ => .ok ([x6PR1, x6PR2, x6PR3], 0) }

def w6Result : List PullRequest := (fetchClosedPRs x6Source 10 1).getD []

def w10R1 : PRInfo := { PRInfo.zero with Number := 1 }

def w10R2 : PRInfo := { PRInfo.zero with Number := 2 }

def w10R3 : PRInfo :=
  { PRInfo.zero with
      Number := 3,
      FirstResponder := "alice",
      FirstHumanResponder := "alice" }

theorem lookupC_bumpCount (m : List (String × Nat)) (k x : String) :
    lookupC (bumpCount m k) x = lookupC m x + (if k = x then 1 else 0) := by
  induction m with
  | nil => simp [bumpCount, lookupC]
  | cons hd tl ih =>
    obtain ⟨k1, c⟩ := hd
    by_cases h1 : k1 = k
    · subst h1
      by_cases h2 : k1 = x
      · subst h2
        simp [bumpCount, lookupC]
      · simp [bumpCount, lookupC, h2]
    · by_cases h2 : k1 = x
      · subst h2
        have h3 : ¬ k = k1 := fun h => h1 (Eq.symm h)
        simp [bumpCount, lookupC, h1, h3]
      · simp [bumpCount, lookupC, h1, h2, ih]

theorem lookupC_foldl_bumpCount (keys : List String) :
    ∀ (m : List (String × Nat)) (x : String),
      lookupC (keys.foldl bumpCount m) x = lookupC m x + countKey keys x := by
  induction keys with
  | nil => intro m x; simp [countKey]
  | cons k ks ih =>
    intro m x
    simp only [List.foldl_cons, countKey, ih, lookupC_bumpCount]
    omega

theorem mem_keys_bumpCount (m : List (String × Nat)) (k x : String) :
    x ∈ (bumpCount m k).map Prod.fst ↔ x ∈ m.map Prod.fst ∨ x = k := by
  induction m with
  | nil => simp [bumpCount]
  | cons hd tl ih =>
    obtain ⟨k1, c⟩ := hd
    by_cases h1 : k1 = k
    · subst h1
      simp [bumpCount]
      tauto
    · simp [bumpCount, h1, ih]
      tauto

theorem mem_keys_foldl_bumpCount (keys : List String) :
    ∀ (m : List (String × Nat)) (x : String),
      x ∈ (keys.foldl bumpCount m).map Prod.fst ↔
        x ∈ m.map Prod.fst ∨ x ∈ keys := by
  induction keys with
  | nil => intro m x; simp
  | cons k ks ih =>
    intro m x
    simp only [List.foldl_cons, ih, mem_keys_bumpCount, List.mem_cons]
    tauto

theorem nodup_keys_bumpCount (m : List (String × Nat)) (k : String) :
    (m.map Prod.fst).Nodup → ((bumpCount m k).map Prod.fst).Nodup := by
  induction m with
  | nil => intro _; simp [bumpCount]
  | cons hd tl ih =>
    intro h
    obtain ⟨k1, c⟩ := hd
    simp only [List.map_cons, List.nodup_cons] at h
    by_cases h1 : k1 = k
    · subst h1
      have hb : bumpCount ((k1, c) :: tl) k1 = (k1, c + 1) :: tl := by
        simp [bumpCount]
      rw [hb]
      simp only [List.map_cons, List.nodup_cons]
      exact h
    · have hb : bumpCount ((k1, c) :: tl) k = (k1, c) :: bumpCount tl k := by
        simp [bumpCount, h1]
      rw [hb]
      simp only [List.map_cons, List.nodup_cons]
      refine ⟨?_, ih h.2⟩
      intro hmem
      rcases (mem_keys_bumpCount tl k k1).mp hmem with h2 | h2
      · exact h.1 h2
      · exact h1 h2

theorem nodup_keys_foldl_bumpCount (keys : List String) :
    ∀ m : List (String × Nat), (m.map Prod.fst).Nodup →
      ((keys.foldl bumpCount m).map Prod.fst).Nodup := by
  induction keys with
  | nil => intro m h; simpa using h
  | cons k ks ih =>
    intro m h
    simp only [List.foldl_cons]
    exact ih _ (nodup_keys_bumpCount m k h)

theorem lookupC_of_mem (m : List (String × Nat)) :
    ∀ (k : String) (c : Nat), (m.map Prod.fst).Nodup → (k, c) ∈ m →
      lookupC m k = c := by
  induction m with
  | nil => intro k c _ hmem; simp at hmem
  | cons hd tl ih =>
    intro k c hnd hmem
    obtain ⟨k1, c1⟩ := hd
    simp only [List.map_cons, List.nodup_cons] at hnd
    rcases List.mem_cons.mp hmem with heq | hmemtl
    · obtain ⟨hk, hc⟩ := Prod.mk.injEq .. ▸ heq
      subst hk; subst hc
      simp [lookupC]
    · have hk1 : k1 ≠ k := by
        intro h
        subst h
        exact hnd.1 (List.mem_map.mpr ⟨(k1, c), hmemtl, rfl⟩)
      simp only [lookupC, if_neg hk1]
      exact ih k c hnd.2 hmemtl

theorem countKey_pos_iff (keys : List String) (x : String) :
    0 < countKey keys x ↔ x ∈ keys := by
  induction keys with
  | nil => simp [countKey]
  | cons k ks ih =>
    simp only [countKey, List.mem_cons]
    by_cases h : k = x
    · subst h; simp
    · simp only [if_neg h, Nat.add_zero, ih]
      constructor
      · exact Or.inr
      · rintro (heq | hmem)
        · exact absurd heq.symm h
        · exact hmem

theorem modeLoop_of_le (m : List (String × Nat)) :
    ∀ (mx : Nat) (best : String), (∀ k c, (k, c) ∈ m → c ≤ mx) →
      modeLoop m mx best = best := by
  induction m with
  | nil => intro mx best _; rfl
  | cons hd tl ih =>
    intro mx best h
    obtain ⟨k, c⟩ := hd
    have hc : c ≤ mx := h k c (List.mem_cons_self _ _)
    simp only [modeLoop, if_neg (by omega : ¬ c > mx)]
    exact ih mx best (fun k2 c2 hm => h k2 c2 (List.mem_cons_of_mem _ hm))

theorem modeLoop_uniqueMax (m : List (String × Nat)) :
    ∀ (mx : Nat) (best k0 : String) (c0 : Nat),
      (k0, c0) ∈ m → (m.map Prod.fst).Nodup →
      (∀ k c, (k, c) ∈ m → k ≠ k0 → c < c0) → mx < c0 →
      modeLoop m mx best = k0 := by
  induction m with
  | nil => intro mx best k0 c0 hmem _ _ _; simp at hmem
  | cons hd tl ih =>
    intro mx best k0 c0 hmem hnd hlt hmx
    obtain ⟨k, c⟩ := hd
    simp only [List.map_cons, List.nodup_cons] at hnd
    by_cases hk : k = k0
    · subst hk
      have hc : c = c0 := by
        rcases List.mem_cons.mp hmem with heq | hmemtl
        · exact (Prod.mk.injEq .. ▸ heq).2.symm
        · exact absurd (List.mem_map.mpr ⟨(k, c0), hmemtl, rfl⟩) hnd.1
      subst hc
      simp only [modeLoop, if_pos (by omega : c > mx)]
      apply modeLoop_of_le
      intro k2 c2 hm2
      have hk2 : k2 ≠ k := by
        intro h
        subst h
        exact hnd.1 (List.mem_map.mpr ⟨(k2, c2), hm2, rfl⟩)
      have := hlt k2 c2 (List.mem_cons_of_mem _ hm2) hk2
      omega
    · have hmemtl : (k0, c0) ∈ tl := by
        rcases List.mem_cons.mp hmem with heq | hmemtl
        · exact absurd ((Prod.mk.injEq .. ▸ heq).1.symm) hk
        · exact hmemtl
      have hcc : c < c0 := hlt k c (List.mem_cons_self _ _) hk
      have hrest : ∀ k2 c2, (k2, c2) ∈ tl → k2 ≠ k0 → c2 < c0 :=
        fun k2 c2 hm2 => hlt k2 c2 (List.mem_cons_of_mem _ hm2)
      by_cases hgt : c > mx
      · simp only [modeLoop, if_pos hgt]
        exact ih c k k0 c0 hmemtl hnd.2 hrest hcc
      · simp only [modeLoop, if_neg hgt]
        exact ih mx best k0 c0 hmemtl hnd.2 hrest hmx

theorem enrichPR_none_of_missing (client : Client) (pr : PullRequest)
    (h : pr.createdAt = none ∨ pr.mergedAt = none) :
    enrichPR client pr = none := by
  cases hm : pr.mergedAt with
  | none =>
    unfold enrichPR
    rw [hm]
  | some m =>
    cases hc : pr.createdAt with
    | none =>
      unfold enrichPR
      rw [hm, hc]
    | some c =>
      rcases h with h | h
      · rw [hc] at h; cases h
      · rw [hm] at h; cases h

theorem enrichPR_ok (client : Client) (pr : PullRequest) (m c : GoTime)
    (comments : List Comment) (commits : List Commit) (reviews : List Review)
    (hm : pr.mergedAt = some m) (hc : pr.createdAt = some c)
    (h1 : client.listComments pr.number = .ok comments)
    (h2 : client.listCommits pr.number = .ok commits)
    (h3 : client.listReviews pr.number = .ok reviews) :
    enrichPR client pr = some
      { scanComments c
          { PRInfo.zero with
              Number := pr.number,
              Title := pr.title,
              Creator := pr.userLogin,
              CreationDayOfWeek := (getDayOfWeekAndTimeOfDay c).1,
              CreationTimeOfDay := (getDayOfWeekAndTimeOfDay c).2,
              Duration := m.abs - c.abs,
              Year := (getYearAndQuarter c).1,
              Quarter := (getYearAndQuarter c).2 } comments with
          Commits := commits.length,
          Commenters :=
            (comments.filter
              (fun (cm : Comment) => !(hasSuffix cm.userLogin "[bot]"))).map
              Comment.userLogin,
          Reviewers :=
            (reviews.filter
              (fun (r : Review) => !(hasSuffix r.userLogin "[bot]"))).map
              Review.userLogin,
          MergeDayOfWeek := (getDayOfWeekAndTimeOfDay m).1,
          MergeTimeOfDay := (getDayOfWeekAndTimeOfDay m).2 } := by
  unfold enrichPR
  rw [hm, hc, h1, h2, h3]

theorem enrichPR_some_inv (client : Client) (pr : PullRequest) (info : PRInfo)
    (h : enrichPR client pr = some info) :
    ∃ (m c : GoTime) (comments : List Comment) (commits : List Commit)
      (reviews : List Review),
      pr.mergedAt = some m ∧ pr.createdAt = some c ∧
      client.listComments pr.number = .ok comments ∧
      client.listCommits pr.number = .ok commits ∧
      client.listReviews pr.number = .ok reviews := by
  cases hm : pr.mergedAt with
  | none =>
    rw [enrichPR_none_of_missing client pr (Or.inr hm)] at h
    cases h
  | some m =>
    cases hc : pr.createdAt with
    | none =>
      rw [enrichPR_none_of_missing client pr (Or.inl hc)] at h
      cases h
    | some c =>
      unfold enrichPR at h
      rw [hm, hc] at h
      cases h1 : client.listComments pr.number with
      | error e => rw [h1] at h; cases h
      | ok comments =>
        rw [h1] at h
        cases h2 : client.listCommits pr.number with
        | error e => rw [h2] at h; cases h
        | ok commits =>
          rw [h2] at h
          cases h3 : client.listReviews pr.number with
          | error e => rw [h3] at h; cases h
          | ok reviews =>
            exact ⟨m, c, comments, commits, reviews, rfl, rfl, rfl, rfl, rfl⟩

/-- C1: the enricher produces a record only for PRs that carry both a
creation instant and a merge instant; a PR lacking either instant yields
none, without error, and every record of getMergeTimes comes from such a
fully dated PR of the input list. -/
theorem claim_C1_record_requires_both_instants :
    (∀ (client : Client) (prs : List PullRequest) (info : PRInfo),
        info ∈ getMergeTimes client prs →
        ∃ pr ∈ prs, pr.createdAt.isSome ∧ pr.mergedAt.isSome ∧
          enrichPR client pr = some info)
    ∧ (∀ (client : Client) (pr : PullRequest),
        pr.createdAt = none ∨ pr.mergedAt = none →
        enrichPR client pr = none) := by
  constructor
  · intro client prs info hmem
    rcases List.mem_filterMap.mp hmem with ⟨pr, hpr, henr⟩
    refine ⟨pr, hpr, ?_, ?_, henr⟩
    · cases hc : pr.createdAt with
      | none =>
        rw [enrichPR_none_of_missing client pr (Or.inl hc)] at henr
        cases henr
      | some c => rfl
    · cases hm : pr.mergedAt with
      | none =>
        rw [enrichPR_none_of_missing client pr (Or.inr hm)] at henr
        cases henr
      | some m => rfl
  · exact enrichPR_none_of_missing

theorem claim_C1_witness :
    (∃ pr ∈ [w1Bad, w1Good], pr.createdAt.isSome ∧ pr.mergedAt.isSome ∧
      enrichPR w1Client pr = some w1Info) ∧
    enrichPR w1Client w1Bad = none :=
  ⟨claim_C1_record_requires_both_instants.1 w1Client [w1Bad, w1Good] w1Info
      (by decide),
   claim_C1_record_requires_both_instants.2 w1Client w1Bad (Or.inr rfl)⟩

/-- C2: the time-of-day bucket of getDayOfWeekAndTimeOfDay is a pure
function of the UTC hour, with boundaries inclusive below and exclusive
above: hour 5 falls in the first bucket (before 06:00), 11 in the second
(06:00 to 12:00), 16 in the third (12:00 to 17:00), 19 in the fourth
(17:00 to 20:00) and 23 in the fifth (after 20:00), while hours 6, 12, 17
and 20 already open the next bucket. -/
theorem claim_C2_time_of_day_buckets :
    (∀ t1 t2 : GoTime, t1.hour = t2.hour →
        (getDayOfWeekAndTimeOfDay t1).2 = (getDayOfWeekAndTimeOfDay t2).2)
    ∧ (∀ t : GoTime, t.hour = 5 →
        (getDayOfWeekAndTimeOfDay t).2 = "after midnight [UTC 00:00-06:00)")
    ∧ (∀ t : GoTime, t.hour = 6 →
        (getDayOfWeekAndTimeOfDay t).2 = "morning [UTC 06:00-12:00)")
    ∧ (∀ t : GoTime, t.hour = 11 →
        (getDayOfWeekAndTimeOfDay t).2 = "morning [UTC 06:00-12:00)")
    ∧ (∀ t : GoTime, t.hour = 12 →
        (getDayOfWeekAndTimeOfDay t).2 = "afternoon [UTC 12:00-17:00)")
    ∧ (∀ t : GoTime, t.hour = 16 →
        (getDayOfWeekAndTimeOfDay t).2 = "afternoon [UTC 12:00-17:00)")
    ∧ (∀ t : GoTime, t.hour = 17 →
        (getDayOfWeekAndTimeOfDay t).2 = "evening [UTC 17:00-20:00)")
    ∧ (∀ t : GoTime, t.hour = 19 →
        (getDayOfWeekAndTimeOfDay t).2 = "evening [UTC 17:00-20:00)")
    ∧ (∀ t : GoTime, t.hour = 20 →
        (getDayOfWeekAndTimeOfDay t).2 = "night [UTC 20:00-00:00)")
    ∧ (∀ t : GoTime, t.hour = 23 →
        (getDayOfWeekAndTimeOfDay t).2 = "night [UTC 20:00-00:00)") := by
  refine ⟨?_, ?_, ?_, ?_, ?_, ?_, ?_, ?_, ?_, ?_⟩
  · intro t1 t2 h
    simp only [getDayOfWeekAndTimeOfDay, h]
  all_goals
    intro t h
    simp only [getDayOfWeekAndTimeOfDay, h]
    decide

theorem claim_C2_witness :
    (getDayOfWeekAndTimeOfDay ⟨0, 0, 5, 1, 2020⟩).2 =
      "after midnight [UTC 00:00-06:00)" ∧
    (getDayOfWeekAndTimeOfDay ⟨0, 0, 6, 1, 2020⟩).2 =
      "morning [UTC 06:00-12:00)" ∧
    (getDayOfWeekAndTimeOfDay ⟨0, 0, 23, 1, 2020⟩).2 =
      "night [UTC 20:00-00:00)" ∧
    (getDayOfWeekAndTimeOfDay ⟨0, 3, 16, 1, 2020⟩).2 =
      (getDayOfWeekAndTimeOfDay ⟨99, 4, 16, 7, 1999⟩).2 :=
  ⟨claim_C2_time_of_day_buckets.2.1 ⟨0, 0, 5, 1, 2020⟩ rfl,
   claim_C2_time_of_day_buckets.2.2.1 ⟨0, 0, 6, 1, 2020⟩ rfl,
   claim_C2_time_of_day_buckets.2.2.2.2.2.2.2.2.2 ⟨0, 0, 23, 1, 2020⟩ rfl,
   claim_C2_time_of_day_buckets.1 ⟨0, 3, 16, 1, 2020⟩ ⟨99, 4, 16, 7, 1999⟩ rfl⟩

/-- C3: getYearAndQuarter maps the months of the creation instant to
quarters with months 1 to 3 giving Q1, 4 to 6 giving Q2, 7 to 9 giving Q3
and 10 to 12 giving Q4; in particular month 3 gives Q1, month 4 gives Q2,
month 9 gives Q3 and month 10 gives Q4. -/
theorem claim_C3_quarters (t : GoTime) :
    (1 ≤ t.month → t.month ≤ 3 → (getYearAndQuarter t).2 = "Q1")
    ∧ (4 ≤ t.month → t.month ≤ 6 → (getYearAndQuarter t).2 = "Q2")
    ∧ (7 ≤ t.month → t.month ≤ 9 → (getYearAndQuarter t).2 = "Q3")
    ∧ (10 ≤ t.month → t.month ≤ 12 → (getYearAndQuarter t).2 = "Q4")
    ∧ (t.month = 3 → (getYearAndQuarter t).2 = "Q1")
    ∧ (t.month = 4 → (getYearAndQuarter t).2 = "Q2")
    ∧ (t.month = 9 → (getYearAndQuarter t).2 = "Q3")
    ∧ (t.month = 10 → (getYearAndQuarter t).2 = "Q4") := by
  refine ⟨?_, ?_, ?_, ?_, ?_, ?_, ?_, ?_⟩ <;>
    · intro h1
      first
      | (intro h2
         simp only [getYearAndQuarter]
         split_ifs <;> first | rfl | omega)
      | (simp only [getYearAndQuarter]
         split_ifs <;> first | rfl | omega)

theorem claim_C3_witness :
    (getYearAndQuarter ⟨0, 0, 0, 3, 2021⟩).2 = "Q1" ∧
    (getYearAndQuarter ⟨0, 0, 0, 4, 2021⟩).2 = "Q2" ∧
    (getYearAndQuarter ⟨0, 0, 0, 9, 2021⟩).2 = "Q3" ∧
    (getYearAndQuarter ⟨0, 0, 0, 10, 2021⟩).2 = "Q4" :=
  ⟨(claim_C3_quarters ⟨0, 0, 0, 3, 2021⟩).2.2.2.2.1 rfl,
   (claim_C3_quarters ⟨0, 0, 0, 4, 2021⟩).2.2.2.2.2.1 rfl,
   (claim_C3_quarters ⟨0, 0, 0, 9, 2021⟩).2.2.2.2.2.2.1 rfl,
   (claim_C3_quarters ⟨0, 0, 0, 10, 2021⟩).2.2.2.2.2.2.2 rfl⟩

/-- C4: on the empty record list every aggregate function returns its zero
default: the mean duration functions return the zero duration, the mean
count functions return zero, every mode and top function returns the empty
string, and the developer-name union is empty. -/
theorem claim_C4_empty_list_defaults :
    averageMergeTime [] = 0 ∧
    averageFirstReponseHumanTime [] = 0 ∧
    averageTimeToFirstBotResponse [] = 0 ∧
    averageNumberOfComments [] = 0 ∧
    averageNumberOfReviewers [] = 0 ∧
    averageNumberOfCommits [] = 0 ∧
    dayWithMostPRsCreated [] = "" ∧
    timeOfTheDayWithMostPRsCreated [] = "" ∧
    dayMostPRsMerged [] = "" ∧
    timeOfTheDayWithMostPRsMerged [] = "" ∧
    dayOfTheWeekWithMostFirstHumanResponses [] = "" ∧
    timeOfTheDayWithMostFirstHumanResponses [] = "" ∧
    dayOfTheWeekWithMostPRReviews [] = "" ∧
    timeOfTheDayWithMostPRReviews [] = "" ∧
    getTheNamesOfAllDevelopersWhoCreatedMergedReviewedCommentedOnOrApprovedPRs
      [] = [] ∧
    getTopReviewer [] = "" ∧
    getTopCommenter [] = "" ∧
    getTopCreator [] = "" ∧
    getTopFirstHumanResponder [] = "" ∧
    getTopFirstResponder [] = "" ∧
    getTopMerger [] = "" :=
  ⟨rfl, rfl, rfl, rfl, rfl, rfl, rfl, rfl, rfl, rfl, rfl, rfl, rfl, rfl,
   rfl, rfl, rfl, rfl, rfl, rfl, rfl⟩

/-- C9: getTopMerger counts the Creator field of each record, exactly as
getTopCreator does, so the two aggregates are extensionally equal. -/
theorem claim_C9_top_merger_equals_top_creator (prData : List PRInfo) :
    getTopMerger prData = getTopCreator prData := rfl

/-- C7: a fetch error for the comments, commits or reviews of a PR makes
the enricher skip that PR, appending no record, while every PR whose
enrichment succeeds still contributes its record to the result list. -/
theorem claim_C7_fetch_error_skips_pr :
    (∀ (client : Client) (pr : PullRequest),
        isErr (client.listComments pr.number) = true ∨
        isErr (client.listCommits pr.number) = true ∨
        isErr (client.listReviews pr.number) = true →
        enrichPR client pr = none)
    ∧ (∀ (client : Client) (prs : List PullRequest) (pr : PullRequest)
        (info : PRInfo), pr ∈ prs → enrichPR client pr = some info →
        info ∈ getMergeTimes client prs) := by
  constructor
  · intro client pr herr
    cases he : enrichPR client pr with
    | none => rfl
    | some info =>
      exfalso
      obtain ⟨m, c, comments, commits, reviews, hm, hc, h1, h2, h3⟩ :=
        enrichPR_some_inv client pr info he
      rcases herr with h | h | h
      · rw [h1] at h; simp [isErr] at h
      · rw [h2] at h; simp [isErr] at h
      · rw [h3] at h; simp [isErr] at h
  · intro client prs pr info hpr henr
    exact List.mem_filterMap.mpr ⟨pr, hpr, henr⟩

theorem claim_C7_witness :
    enrichPR w7Client w7Bad = none ∧
    w7Info ∈ getMergeTimes w7Client [w7Bad, w7Good] :=
  ⟨claim_C7_fetch_error_skips_pr.1 w7Client w7Bad
      (Or.inr (Or.inl (by decide))),
   claim_C7_fetch_error_skips_pr.2 w7Client [w7Bad, w7Good] w7Good w7Info
      (by decide) rfl⟩

/-- C8 counterexample: a PR with two comments by the same human handle
produces a record whose Commenters list holds that handle twice, so the
list of non-bot commenter handles of a single record is not duplicate
free. -/
theorem claim_C8_counterexample :
    (enrichPR x8Client x8PR).map PRInfo.Commenters = some ["alice", "alice"] ∧
    ¬ (["alice", "alice"] : List String).Nodup := by
  constructor
  · rfl
  · decide

/-- C8 amended: the Commenters list of an enriched record holds one entry
per non-bot comment of the PR, in comment order, so one handle may appear
several times within a single record. -/
theorem claim_C8_amended_commenters (client : Client) (pr : PullRequest)
    (info : PRInfo) (comments : List Comment)
    (hcom : client.listComments pr.number = .ok comments)
    (henr : enrichPR client pr = some info) :
    info.Commenters =
      (comments.filter
        (fun (cm : Comment) => !(hasSuffix cm.userLogin "[bot]"))).map
        Comment.userLogin := by
  obtain ⟨m, c, comments2, commits, reviews, hm, hc, h1, h2, h3⟩ :=
    enrichPR_some_inv client pr info henr
  rw [hcom] at h1
  injection h1 with h1e
  subst h1e
  have hok := enrichPR_ok client pr m c comments commits reviews hm hc hcom h2 h3
  rw [hok] at henr
  have hinfo := Option.some_inj.mp henr
  rw [← hinfo]

theorem claim_C8_witness :
    x8Info.Commenters =
      (([⟨"alice", x8T1⟩, ⟨"alice", x8T2⟩] : List Comment).filter
        (fun (cm : Comment) => !(hasSuffix cm.userLogin "[bot]"))).map
        Comment.userLogin :=
  claim_C8_amended_commenters x8Client x8PR x8Info
    [⟨"alice", x8T1⟩, ⟨"alice", x8T2⟩] rfl rfl

/-- C5: on a merged PR whose comment list is exactly a comment by
"bot-x[bot]" followed by a comment by "alice", the record has first
responder "bot-x[bot]" with latency comment1 time minus creation time, and
first human responder "alice" with latency comment2 time minus creation
time. -/
theorem claim_C5_first_and_human_responder (client : Client)
    (pr : PullRequest) (c m : GoTime) (c1 c2 : Comment) (info : PRInfo)
    (hc : pr.createdAt = some c) (hm : pr.mergedAt = some m)
    (hcom : client.listComments pr.number = .ok [c1, c2])
    (h1 : c1.userLogin = "bot-x[bot]") (h2 : c2.userLogin = "alice")
    (henr : enrichPR client pr = some info) :
    info.FirstResponder = "bot-x[bot]" ∧
    info.TimeToFirstResponse = c1.createdAt.abs - c.abs ∧
    info.FirstHumanResponder = "alice" ∧
    info.TimeToFirstHumanResponse = c2.createdAt.abs - c.abs := by
  obtain ⟨m2, c2t, comments2, commits, reviews, hm2, hc2, hl1, hl2, hl3⟩ :=
    enrichPR_some_inv client pr info henr
  rw [hm] at hm2
  rw [hc] at hc2
  injection hm2 with hm3
  injection hc2 with hc3
  subst hm3
  subst hc3
  rw [hcom] at hl1
  injection hl1 with hl1e
  subst hl1e
  have hok := enrichPR_ok client pr m c [c1, c2] commits reviews hm hc hcom
    hl2 hl3
  rw [hok] at henr
  have hinfo := Option.some_inj.mp henr
  subst hinfo
  have hb1 : hasSuffix "bot-x[bot]" "[bot]" = true := by decide
  have hb2 : hasSuffix "alice" "[bot]" = false := by decide
  refine ⟨?_, ?_, ?_, ?_⟩ <;>
    simp [scanComments, PRInfo.zero, hb1, hb2, h1, h2]

theorem claim_C5_witness :
    w5Info.FirstResponder = "bot-x[bot]" ∧
    w5Info.TimeToFirstResponse = w5TC1.abs - w5T0.abs ∧
    w5Info.FirstHumanResponder = "alice" ∧
    w5Info.TimeToFirstHumanResponse = w5TC2.abs - w5T0.abs :=
  claim_C5_first_and_human_responder w5Client w5PR w5T0 w5TM w5C1 w5C2 w5Info
    rfl rfl rfl rfl rfl rfl

/-- C6 counterexample: with target count 10 against a source whose only
page holds 3 closed PRs (and reports no further pages), the fetch
succeeds but returns 3 items, not exactly 10. -/
theorem claim_C6_counterexample :
    (fetchClosedPRs x6Source 10 1).map List.length = some 3 ∧
    (3 : Nat) ≠ 10 := by
  constructor
  · rfl
  · decide

/-- C6 amended: the fetcher requests pages of size min 100 N when the
target count N is positive (else 100) and accumulates pages until the
count reaches N or no pages remain; when N is positive the resulting list
holds at most N items. -/
theorem claim_C6_amended_fetch_bounds :
    (∀ numPRs : Int, 0 < numPRs →
        (getPullRequestListOptions numPRs).perPage = min 100 numPRs)
    ∧ (∀ numPRs : Int, numPRs ≤ 0 →
        (getPullRequestListOptions numPRs).perPage = 100)
    ∧ (∀ (src : PRSource) (numPRs : Int) (fuel : Nat)
        (l : List PullRequest), 0 < numPRs →
        fetchClosedPRs src numPRs fuel = some l →
        (l.length : Int) ≤ numPRs) := by
  refine ⟨?_, ?_, ?_⟩
  · intro n hn
    simp only [getPullRequestListOptions]
    split_ifs with h1 <;> omega
  · intro n hn
    simp only [getPullRequestListOptions]
    split_ifs with h1 <;> omega
  · intro src n fuel l hn hfetch
    simp only [fetchClosedPRs] at hfetch
    cases hloop : fetchLoop src n (getPullRequestListOptions n).perPage fuel
        [] (getPullRequestListOptions n).page with
    | none => rw [hloop] at hfetch; cases hfetch
    | some allPRs =>
      rw [hloop] at hfetch
      simp only [Option.map_some', Option.some_inj] at hfetch
      by_cases hcond : 0 < n ∧ n < (allPRs.length : Int)
      · rw [if_pos hcond] at hfetch
        rw [← hfetch]
        simp only [List.length_take]
        have : (min n.toNat allPRs.length : Int) ≤ n := by
          have h2 : (0 : Int) ≤ n := le_of_lt hn
          omega
        simpa using this
      · rw [if_neg hcond] at hfetch
        rw [← hfetch]
        omega

theorem claim_C6_amended_witness :
    (getPullRequestListOptions 10).perPage = min 100 10 ∧
    ((w6Result.length : Int) ≤ 10) :=
  ⟨claim_C6_amended_fetch_bounds.1 10 (by decide),
   claim_C6_amended_fetch_bounds.2.2 x6Source 10 1 w6Result (by decide) rfl⟩

theorem foldl_human_eq_bumpIfHuman (l : List PRInfo)
    (m : List (String × Nat)) :
    l.foldl
      (fun m pr =>
        if pr.FirstHumanResponder ≠ "" then
          bumpCount m pr.FirstHumanResponder
        else m) m = l.foldl bumpIfHuman m := rfl

theorem foldl_bump_skip (l : List PRInfo) :
    ∀ m : List (String × Nat),
      l.foldl bumpIfHuman m =
      (l.filter
          (fun pr => decide (pr.FirstHumanResponder ≠ ""))).foldl
        bumpIfHuman m := by
  induction l with
  | nil => intro m; rfl
  | cons pr rest ih =>
    intro m
    by_cases h : pr.FirstHumanResponder = ""
    · have h1 : bumpIfHuman m pr = m := by simp [bumpIfHuman, h]
      have h2 :
          (pr :: rest).filter
            (fun pr => decide (pr.FirstHumanResponder ≠ "")) =
          rest.filter (fun pr => decide (pr.FirstHumanResponder ≠ "")) := by
        simp [List.filter_cons, h]
      rw [h2, List.foldl_cons, h1]
      exact ih m
    · have h2 :
          (pr :: rest).filter
            (fun pr => decide (pr.FirstHumanResponder ≠ "")) =
          pr :: rest.filter
            (fun pr => decide (pr.FirstHumanResponder ≠ "")) := by
        simp [List.filter_cons, h]
      rw [h2, List.foldl_cons, List.foldl_cons]
      exact ih (bumpIfHuman m pr)

/-- C10: getTopFirstHumanResponder ignores records whose first human
responder is empty (filtering them away does not change its result), while
getTopFirstResponder counts the FirstResponder field of every record, the
empty string included: whenever the records with empty FirstResponder
strictly outnumber the occurrences of every nonempty responder handle in a
nonempty record list, getTopFirstResponder returns the empty string. -/
theorem claim_C10_top_first_responder_empty :
    (∀ prData : List PRInfo,
        getTopFirstHumanResponder prData =
          getTopFirstHumanResponder
            (prData.filter (fun pr => decide (pr.FirstHumanResponder ≠ ""))))
    ∧ (∀ prData : List PRInfo, prData ≠ [] →
        (∀ h : String, h ≠ "" →
          countKey (prData.map PRInfo.FirstResponder) h <
            countKey (prData.map PRInfo.FirstResponder) "") →
        getTopFirstResponder prData = "") := by
  constructor
  · intro prData
    unfold getTopFirstHumanResponder
    by_cases h1 : prData.length = 0
    · rw [List.length_eq_zero.mp h1]
      rfl
    · rw [if_neg h1]
      by_cases h2 :
          (prData.filter
            (fun pr => decide (pr.FirstHumanResponder ≠ ""))).length = 0
      · rw [if_pos h2]
        rw [foldl_human_eq_bumpIfHuman, foldl_bump_skip prData [],
          List.length_eq_zero.mp h2]
        rfl
      · rw [if_neg h2]
        rw [foldl_human_eq_bumpIfHuman, foldl_bump_skip prData [],
          foldl_human_eq_bumpIfHuman]
  · intro prData hne hmaj
    have hlen : prData.length ≠ 0 := fun h => hne (List.length_eq_zero.mp h)
    unfold getTopFirstResponder
    rw [if_neg hlen]
    have hfold : prData.foldl (fun m pr => bumpCount m pr.FirstResponder) []
        = (prData.map PRInfo.FirstResponder).foldl bumpCount [] :=
      (List.foldl_map PRInfo.FirstResponder bumpCount prData []).symm
    rw [hfold]
    have hc0pos : 0 < countKey (prData.map PRInfo.FirstResponder) "" := by
      by_contra h0
      push_neg at h0
      obtain ⟨k, hk⟩ : ∃ k, k ∈ prData.map PRInfo.FirstResponder := by
        cases prData with
        | nil => exact absurd rfl hne
        | cons a l => exact ⟨a.FirstResponder, by simp⟩
      by_cases hk0 : k = ""
      · subst hk0
        have := (countKey_pos_iff (prData.map PRInfo.FirstResponder) "").mpr hk
        omega
      · have h1 := hmaj k hk0
        omega
    have hmem0 : "" ∈ prData.map PRInfo.FirstResponder :=
      (countKey_pos_iff (prData.map PRInfo.FirstResponder) "").mp hc0pos
    have hnd : (((prData.map PRInfo.FirstResponder).foldl bumpCount
        []).map Prod.fst).Nodup :=
      nodup_keys_foldl_bumpCount (prData.map PRInfo.FirstResponder) []
        (by simp)
    have hmemm : "" ∈ ((prData.map PRInfo.FirstResponder).foldl bumpCount
        []).map Prod.fst :=
      (mem_keys_foldl_bumpCount (prData.map PRInfo.FirstResponder) []
        "").mpr (Or.inr hmem0)
    obtain ⟨p, hp, hpfst⟩ := List.mem_map.mp hmemm
    obtain ⟨k0, c0⟩ := p
    have hk0 : k0 = "" := hpfst
    subst hk0
    have hc0 : c0 = countKey (prData.map PRInfo.FirstResponder) "" := by
      have h1 := lookupC_of_mem _ "" c0 hnd hp
      have h2 := lookupC_foldl_bumpCount (prData.map PRInfo.FirstResponder)
        [] ""
      simp only [lookupC] at h2
      omega
    apply modeLoop_uniqueMax _ 0 "" "" c0 hp hnd
    · intro k c hkc hkne
      have h1 := lookupC_of_mem _ k c hnd hkc
      have h2 := lookupC_foldl_bumpCount (prData.map PRInfo.FirstResponder)
        [] k
      simp only [lookupC] at h2
      have h3 := hmaj k hkne
      omega
    · omega

theorem claim_C10_witness :
    getTopFirstResponder [w10R1, w10R2, w10R3] = "" ∧
    getTopFirstHumanResponder [w10R1, w10R2, w10R3] =
      getTopFirstHumanResponder
        ([w10R1, w10R2, w10R3].filter
          (fun pr => decide (pr.FirstHumanResponder ≠ ""))) :=
  ⟨claim_C10_top_first_responder_empty.2 [w10R1, w10R2, w10R3]
      (by simp [w10R1])
      (by
        intro h hne
        have h0 : ¬ ("" = h) := fun he => hne (Eq.symm he)
        by_cases ha : "alice" = h <;>
          simp [w10R1, w10R2, w10R3, PRInfo.zero, countKey, h0, ha]),
   claim_C10_top_first_responder_empty.1 [w10R1, w10R2, w10R3]⟩

end TimeToReview

